import Mathlib

/-!
# rvault: secret store engine (`src/core/sdb.c`) and hex utilities (`src/misc/utils.c`)

A shallow embedding of the C sources.  Byte buffers and character streams are
lists of natural numbers (each element a byte value, reduced modulo 256 where
the C code stores into a `uint8_t`); C strings are `String`s; calls into
collaborating libraries are either modelled by their documented behaviour or
taken as parameters, as noted at each definition.
-/

set_option autoImplicit false

namespace Rvault

/-! ## `src/misc/utils.c`: hex writer and reader -/

/-- The constant `BUF_SIZE` of `utils.c`. -/
def BUF_SIZE : Nat := 1024

/-- The constant `BUF_GROW_SIZE` of `utils.c`. -/
def BUF_GROW_SIZE : Nat := 1024

/-- One lowercase hexadecimal digit as an ASCII code, as `%x` prints it. -/
def hexDigit (n : Nat) : Nat :=
  if n < 10 then 48 + n else 87 + n

/-- The text `fprintf(stream, "%02x", b)` writes for a `uint8_t` value `b`. -/
def fmt02x (b : Nat) : List Nat :=
  [hexDigit (b % 256 / 16), hexDigit (b % 256 % 16)]

/-- The two loops of `hex_write_wrapped`: `n` is the block counter, the list is
what remains of the buffer (`b`, `len`).  Every pair of bytes is written as
`"%02x%02x%c"`, the separator being a newline after each 15th block and a space
otherwise; a trailing odd byte is written as `"%02x"`. -/
def hex_write_loop : Nat → List Nat → List Nat
  | n, b0 :: b1 :: rest =>
      let endb : Nat := if (n + 1) % 15 = 0 then 10 else 32
      fmt02x b0 ++ fmt02x b1 ++ [endb] ++ hex_write_loop (n + 1) rest
  | _, [b] => fmt02x b
  | _, [] => []

/-- The function `hex_write_wrapped`: the text appended to `stream` for the
buffer `buf` (every `fprintf` succeeding), and the returned count `nbytes` of
characters written. -/
def hex_write_wrapped (buf : List Nat) : List Nat × Nat :=
  let text := hex_write_loop 0 buf
  (text, text.length)

/-- The C library `tolower` on an `unsigned char`, C locale. -/
def tolower (c : Nat) : Nat :=
  if 65 ≤ c ∧ c ≤ 90 then c + 32 else c

/-- The C library `isxdigit`, C locale. -/
def isxdigit (c : Nat) : Bool :=
  (48 ≤ c && c ≤ 57) || (97 ≤ c && c ≤ 102) || (65 ≤ c && c ≤ 70)

/-- The local state of one pass of the `for` loop in `hex_read_arbitrary`:
the half-byte flag `hf`, the output buffer `buf` and the count `nbytes`. -/
structure HexState where
  hf : Bool
  buf : List Nat
  nbytes : Nat
deriving DecidableEq, Repr

/-- One iteration of the `for` loop of `hex_read_arbitrary` on the character
`c = tmpbuf[i]`. -/
def hex_read_char (s : HexState) (c : Nat) : HexState :=
  let halfb := tolower (c % 256)
  if !isxdigit halfb then s
  else
    let halfb := (halfb - (if halfb ≥ 97 then 97 - 10 else 48)) % 256
    if s.hf then
      let prev := s.nbytes - 1
      { hf := !s.hf
        buf := s.buf.set prev ((((s.buf.getD prev 0) <<< 4) ||| halfb) % 256)
        nbytes := s.nbytes }
    else
      { hf := !s.hf
        buf := s.buf.set s.nbytes halfb
        nbytes := s.nbytes + 1 }

/-- The `while (!feof(stream))` loop of `hex_read_arbitrary`.  `stream` is the
unread text, `eof` the end-of-file indicator, `heap` the largest size `calloc`
grants; `fuel` bounds the number of iterations.  Each iteration grows the
buffer when fewer than `BUF_SIZE` bytes are free, reads a block of up to
`BUF_SIZE` characters with `fread`, and runs the `for` loop over it with a
freshly declared `hf = false`.  The result is `none` when `calloc` fails (the C
code returns `NULL`), and the pair of `buf` and `*outlen` otherwise. -/
def hex_read_loop (heap : Nat) :
    Nat → List Nat → Bool → Nat → List Nat → Nat → Option (List Nat × Nat)
  | 0, _, _, _, buf, nbytes => some (buf, nbytes)
  | fuel + 1, stream, eof, alloc_len, buf, nbytes =>
      if eof then some (buf, nbytes)
      else
        let grow := decide (alloc_len - nbytes < BUF_SIZE)
        let alloc_len' := if grow then alloc_len + BUF_GROW_SIZE else alloc_len
        if grow && decide (heap < alloc_len') then none
        else
          let buf' :=
            if grow then buf.take nbytes ++ List.replicate (alloc_len' - nbytes) 0
            else buf
          let tmpbuf := stream.take BUF_SIZE
          let len := tmpbuf.length
          if len = 0 then some (buf', nbytes)
          else
            let s := tmpbuf.foldl hex_read_char { hf := false, buf := buf', nbytes := nbytes }
            hex_read_loop heap fuel (stream.drop BUF_SIZE) (decide (len < BUF_SIZE))
              alloc_len' s.buf s.nbytes

/-- The function `hex_read_arbitrary` on a stream holding `text`: `none` for a
`NULL` return, otherwise the returned buffer and the value stored in
`*outlen`.  The loop runs at most once per block of the text and once more. -/
def hex_read_arbitrary (heap : Nat) (text : List Nat) : Option (List Nat × Nat) :=
  hex_read_loop heap (text.length / BUF_SIZE + 2) text false 0 [] 0

/-- The bytes a caller of `hex_read_arbitrary` sees: the first `*outlen` bytes
of the returned buffer. -/
def hex_read_bytes (heap : Nat) (text : List Nat) : Option (List Nat) :=
  (hex_read_arbitrary heap text).map fun r => r.1.take r.2

/-! ## `src/core/sdb.c`: the relational image

The embedded SQL engine is a collaborating library.  Only the schema created by
`sdb_init` and the four statements of `sdb_cmds` are modelled, after the
engine's documented behaviour for them. -/

/-- One row of the table `sdb`: the `id INTEGER PRIMARY KEY AUTOINCREMENT`
column and the two `VARCHAR` columns, each of which is `NULL` (`none`) or a
text. -/
structure Row where
  id : Nat
  key : Option String
  val : Option String
deriving DecidableEq, Repr

/-- The table `sdb` together with its `AUTOINCREMENT` counter `seq`, the largest
row id the table has ever held. -/
structure Table where
  rows : List Row
  seq : Nat
deriving DecidableEq, Repr

/-- The in-memory database behind `sqlite3 *db`: it holds the table `sdb` or,
when `sdb` is `none`, has no such table. -/
structure Image where
  sdb : Option Table
deriving DecidableEq, Repr

/-- The columns `key` and `val` are declared `UNIQUE` and `id` is the primary
key: no two rows share an id, a non-`NULL` key or a non-`NULL` value, and no id
exceeds the counter. -/
def Schema (t : Table) : Prop :=
  (t.rows.map fun r => r.id).Nodup ∧
  (t.rows.filterMap fun r => r.key).Nodup ∧
  (t.rows.filterMap fun r => r.val).Nodup ∧
  ∀ r ∈ t.rows, r.id ≤ t.seq

instance (t : Table) : Decidable (Schema t) :=
  inferInstanceAs (Decidable (_ ∧ _ ∧ _ ∧ _))

/-- The largest row id of the engine, `2^63 - 1`. -/
def ROWID_MAX : Nat := 9223372036854775807

/-- The row id an `AUTOINCREMENT` insertion picks: one more than the largest id
that ever existed in the table. -/
def next_rowid (t : Table) : Nat :=
  max t.seq (t.rows.foldl (fun m r => max m r.id) 0) + 1

/-- The SQL comparison `a = b` as a `WHERE` condition: true for two equal texts,
never true when either side is `NULL`. -/
def sql_eq : Option String → Option String → Bool
  | some x, some y => decide (x = y)
  | _, _ => false

/-- The order of `ORDER BY key`: `NULL` sorts first, texts compare as strings. -/
def key_le : Option String → Option String → Bool
  | none, _ => true
  | some _, none => false
  | some x, some y => decide (x ≤ y)

/-- The four statements that occur in `sdb_cmds`. -/
inductive Stmt where
  | select_keys
  | select_val
  | insert_or_replace
  | delete_key
deriving DecidableEq, Repr

/-- The call `sqlite3_prepare_v2(sdb->db, query, -1, &stmt, NULL)`: it compiles
the SQL text against the image, and fails when the image has no table `sdb` or
the text is none of the statements modelled. -/
def sqlite3_prepare_v2 (db : Image) (query : String) : Option (Stmt × Table) :=
  match db.sdb with
  | none => none
  | some t =>
      if query = "SELECT key FROM sdb ORDER BY key" then some (.select_keys, t)
      else if query = "SELECT val FROM sdb WHERE key = ?" then some (.select_val, t)
      else if query = "INSERT OR REPLACE INTO sdb (key, val) VALUES (?, ?)" then
        some (.insert_or_replace, t)
      else if query = "DELETE FROM sdb WHERE key = ?" then some (.delete_key, t)
      else none

/-- The number of `?` parameters of a statement; `sqlite3_bind_text` at an index
beyond it fails. -/
def Stmt.nparams : Stmt → Nat
  | .select_keys => 0
  | .select_val => 1
  | .insert_or_replace => 2
  | .delete_key => 1

/-- Running a prepared statement to `SQLITE_DONE` with parameter 1 bound to `k`
and parameter 2 to `v` (an unbound parameter is `NULL`): the result rows, each a
list of columns, and the table afterwards.  `INSERT OR REPLACE` first deletes
every row that conflicts with the new one on a `UNIQUE` column and then inserts
it under a new row id; once the row ids are exhausted the insertion fails on
every attempt, and the result is `none`. -/
def sqlite3_run (stmt : Stmt) (k v : Option String) (t : Table) :
    Option (List (List (Option String)) × Table) :=
  match stmt with
  | .select_keys =>
      some (((t.rows.map fun r => r.key).insertionSort fun a b => key_le a b = true).map fun c => [c], t)
  | .select_val =>
      some (((t.rows.filter fun r => sql_eq r.key k).map fun r => [r.val]), t)
  | .insert_or_replace =>
      let id := next_rowid t
      if ROWID_MAX < id then none
      else
        some ([], { rows := (t.rows.filter fun r => !(sql_eq r.key k || sql_eq r.val v))
                              ++ [{ id := id, key := k, val := v }],
                    seq := id })
  | .delete_key =>
      some ([], { rows := t.rows.filter fun r => !(sql_eq r.key k), seq := t.seq })

/-- The result of `sqlite3_column_type`: `SQLITE_TEXT` (3) or `SQLITE_NULL` (5). -/
def sqlite3_column_type : Option String → Nat
  | some _ => 3
  | none => 5

/-! ## `src/core/sdb.c`: open, sync, query, command execution and the loop -/

/-- The observable steps of the functions of `sdb.c`: calls into the C library,
the container codec and the SQL engine, in the order they are made.  Buffers
and strings passed to a call are recorded with the contents they have at the
call. -/
inductive Event where
  | asprintf
  | sys_open
  | fs_file_size
  | storage_read_data (flen : Int)
  | sqlite3_open
  | sqlite3_malloc64 (len : Nat)
  | memcpy (len : Nat)
  | sbuffer_free (buf : List Nat)
  | sqlite3_deserialize
  | sdb_init
  | calloc
  | sqlite3_close
  | sys_close
  | free
  | sqlite3_serialize
  | storage_write_data (fd : Nat) (buf : List Nat)
  | sqlite3_free (buf : List Nat)
  | crypto_memzero (s : String)
  | readline (line : Option String)
  | getpass
  | sqlite3_step (stmt : Stmt) (k v : Option String)
  | printf (text : Option String)
  | app_log
  | sdb_sync
  | sdb_usage
  | err_exit
deriving DecidableEq, Repr

/-- The handle `sdb_t`: the descriptor of the container file and the database. -/
structure Handle where
  fd : Nat
  db : Image
deriving DecidableEq, Repr

/-- The table `sdb` as `sdb_init` creates it in a database without one. -/
def Table.empty : Table := { rows := [], seq := 0 }

/-- The function `sdb_init`: `CREATE TABLE IF NOT EXISTS sdb (...)` and
`CREATE INDEX IF NOT EXISTS`, with `exec_ok` telling whether `sqlite3_exec`
returns `SQLITE_OK`.  Returns the `int` result and the database. -/
def sdb_init (exec_ok : Bool) (db : Image) : Int × Image :=
  if !exec_ok then (-1, db)
  else
    match db.sdb with
    | some _ => (0, db)
    | none => (0, { sdb := some Table.empty })

/-- What the collaborators of `sdb_open` answer: whether `asprintf` succeeds,
the descriptor `open` returns (`none` for -1), the result of `fs_file_size`,
the buffer `storage_read_data` returns for the file (`none` for `NULL`; `*len`
is its length), whether `sqlite3_open` succeeds and, when it fails, whether it
still stores a handle in `db`, whether `sqlite3_malloc64` succeeds, the
database `sqlite3_deserialize` builds from a buffer (`none` when it fails),
whether the `sqlite3_exec` of `sdb_init` succeeds, and whether `calloc`
succeeds. -/
structure OpenEnv where
  asprintf_ok : Bool
  open_fd : Option Nat
  fs_file_size : Int
  storage_read_data : Option (List Nat)
  sqlite3_open_ok : Bool
  sqlite3_open_handle : Bool
  sqlite3_malloc64_ok : Bool
  sqlite3_deserialize : List Nat → Option Image
  sdb_init_ok : Bool
  calloc_ok : Bool

/-- The label `out:` of `sdb_open`: close the database if it was opened, close
the descriptor, `free(sdb)`, and return `NULL`. -/
def sdb_open_out (db_opened : Bool) (trace : List Event) : Option Handle × List Event :=
  (none, trace ++ (if db_opened then [Event.sqlite3_close] else []) ++ [.sys_close, .free])

/-- The second half of `sdb_open`, from `sqlite3_open(":memory:", &db)` on, with
the descriptor `fd`, the decoded buffer `buf` (`none` for `NULL`) and the calls
made so far: the stored database is imported if there is a buffer, and a fresh
one is initialised by `sdb_init` otherwise. -/
def sdb_open_db (e : OpenEnv) (fd : Nat) (buf : Option (List Nat)) (t1 : List Event) :
    Option Handle × List Event :=
  let t2 := t1 ++ [.sqlite3_open]
  if !e.sqlite3_open_ok then sdb_open_out e.sqlite3_open_handle t2
  else
    match buf with
    | some b =>
        let t3 := t2 ++ [.sqlite3_malloc64 b.length]
        if !e.sqlite3_malloc64_ok then sdb_open_out true t3
        else
          let t4 := t3 ++ [.memcpy b.length, .sbuffer_free b, .sqlite3_deserialize]
          match e.sqlite3_deserialize b with
          | none => sdb_open_out true (t4 ++ [.app_log])
          | some db =>
              if !e.calloc_ok then sdb_open_out true (t4 ++ [.calloc])
              else (some { fd := fd, db := db }, t4 ++ [.calloc])
    | none =>
        let t3 := t2 ++ [.sdb_init]
        let r := sdb_init e.sdb_init_ok { sdb := none }
        if r.1 = -1 then sdb_open_out true (t3 ++ [.app_log])
        else if !e.calloc_ok then sdb_open_out true (t3 ++ [.calloc])
        else (some { fd := fd, db := r.2 }, t3 ++ [.calloc])

/-- The function `sdb_open`: the handle returned (`none` for `NULL`) and the
calls made.  The first half opens the file, takes its size and, when the size
is non-zero, decodes it with `storage_read_data`. -/
def sdb_open (e : OpenEnv) : Option Handle × List Event :=
  if !e.asprintf_ok then (none, [.asprintf])
  else
    match e.open_fd with
    | none => (none, [.asprintf, .sys_open, .free])
    | some fd =>
      let t0 : List Event := [.asprintf, .sys_open, .free, .fs_file_size]
      if e.fs_file_size = -1 then sdb_open_out false t0
      else if e.fs_file_size ≠ 0 then
        match e.storage_read_data with
        | none => sdb_open_out false (t0 ++ [.storage_read_data e.fs_file_size])
        | some b => sdb_open_db e fd (some b) (t0 ++ [.storage_read_data e.fs_file_size])
      else sdb_open_db e fd none t0

/-- What the collaborators of the command loop answer: the tokens
`str_tokenize` stores for a line (the function is declared in a header that is
not among the sources; `n` is the length of the list), the buffer
`sqlite3_serialize` exports for a database (`none` for `NULL`), and the result
of `storage_write_data` for a descriptor and a buffer. -/
structure Env where
  str_tokenize : String → List String
  sqlite3_serialize : Image → Option (List Nat)
  storage_write_data : Nat → List Nat → Int

/-- The function `sdb_sync`: the `int` result and the calls made.  The exported
buffer is handed to `storage_write_data` and then to `sqlite3_free`. -/
def sdb_sync (X : Env) (sdb : Handle) : Int × List Event :=
  match X.sqlite3_serialize sdb.db with
  | none => (-1, [.sqlite3_serialize])
  | some buf =>
      let ret := X.storage_write_data sdb.fd buf
      (ret, [.sqlite3_serialize, .storage_write_data sdb.fd buf, .sqlite3_free buf])

/-- The function `sdb_close`. -/
def sdb_close (_sdb : Handle) : List Event :=
  [.sqlite3_close, .sys_close, .free]

/-- What a function that works on the database returns: the `int` result, the
database afterwards and the calls made. -/
structure Result where
  ret : Int
  db : Image
  trace : List Event
deriving DecidableEq, Repr

/-- The function `sdb_query`.  Preparing fails on a database without the table;
binding `k` at index 1 and `v` at index 2 is attempted only for a non-`NULL`
argument and fails beyond the parameters of the statement; the statement is
then stepped to `SQLITE_DONE`, each column of each row being printed when its
type code is non-zero.  The result is `none` when the stepping loop never
reaches `SQLITE_DONE`. -/
def sdb_query (db : Image) (query : String) (k v : Option String) : Option Result :=
  match sqlite3_prepare_v2 db query with
  | none => some { ret := -1, db := db, trace := [.app_log] }
  | some (stmt, t) =>
      if k.isSome && decide (stmt.nparams < 1) then
        some { ret := -1, db := db, trace := [.app_log] }
      else if v.isSome && decide (stmt.nparams < 2) then
        some { ret := -1, db := db, trace := [.app_log] }
      else
        match sqlite3_run stmt k v t with
        | none => none
        | some (rows, t') =>
            let printed := rows.map fun cols =>
              (cols.filter fun c => sqlite3_column_type c != 0).map Event.printf
            some { ret := 0, db := { sdb := some t' },
                   trace := Event.sqlite3_step stmt k v :: printed.flatten }

/-- The table `sdb_cmds`: command name, parameter count and SQL text. -/
def sdb_cmds : List (String × Nat × String) :=
  [ ("LS", 0, "SELECT key FROM sdb ORDER BY key"),
    ("GET", 1, "SELECT val FROM sdb WHERE key = ?"),
    ("SET", 2, "INSERT OR REPLACE INTO sdb (key, val) VALUES (?, ?)"),
    ("DEL", 1, "DELETE FROM sdb WHERE key = ?") ]

/-- The test `strcasecmp(a, b) == 0`: equality up to the case of ASCII letters. -/
def strcasecmp_eq (a b : String) : Bool :=
  a.data.map Char.toLower == b.data.map Char.toLower

/-- The `for` loop of `sdb_exec_cmd` over the entries of `sdb_cmds` from some
index on: the first entry whose name matches `tokens[0]` runs its query with
`key = tokens[1]` when it takes at least one parameter and with the secret that
`getpass` returns when it takes two, then zeroes the secret; without a match the
result is -1. -/
def sdb_exec_loop (getpass : Option String) (db : Image) (tok0 : String)
    (tok1 : Option String) : List (String × Nat × String) → Option Result
  | [] => some { ret := -1, db := db, trace := [] }
  | (cmd, params, query) :: rest =>
      if !strcasecmp_eq cmd tok0 then sdb_exec_loop getpass db tok0 tok1 rest
      else
        let key := if params ≥ 1 then tok1 else none
        let secret := if params ≥ 2 then getpass else none
        let t0 : List Event := if params ≥ 2 then [.getpass] else []
        match sdb_query db query key secret with
        | none => none
        | some r =>
            let t1 : List Event :=
              match secret with
              | some s => [.crypto_memzero s]
              | none => []
            some { ret := r.ret, db := r.db, trace := t0 ++ r.trace ++ t1 }

/-- The function `sdb_exec_cmd` on a line, `getpass` being what the call
`getpass("Secret:")` returns if it is made (`none` for `NULL`). -/
def sdb_exec_cmd (X : Env) (getpass : Option String) (db : Image) (line : String) :
    Option Result :=
  match X.str_tokenize line with
  | [] => some { ret := -1, db := db, trace := [] }
  | tok0 :: more => sdb_exec_loop getpass db tok0 more.head? sdb_cmds

/-- The body of the `while` loop of `sdb_cli` for one line that `readline`
returned: execute it, then call `sdb_sync` if the result is 0 and `sdb_usage`
otherwise, zero the line and free it.  The result of `sdb_sync` is ignored. -/
def sdb_cli_line (X : Env) (sdb : Handle) (line : String) (getpass : Option String) :
    Option (Handle × List Event) :=
  match sdb_exec_cmd X getpass sdb.db line with
  | none => none
  | some r =>
      let sdb1 : Handle := { fd := sdb.fd, db := r.db }
      let t : List Event :=
        if r.ret = 0 then Event.sdb_sync :: (sdb_sync X sdb1).2 else [.sdb_usage]
      some (sdb1, r.trace ++ t ++ [.crypto_memzero line, .free])

/-- The `while ((line = readline("> ")) != NULL)` loop of `sdb_cli` over the
lines the user enters, each paired with what `getpass` would return for it, up
to the end of input. -/
def sdb_cli_loop (X : Env) : Handle → List (String × Option String) →
    Option (Handle × List Event)
  | sdb, [] => some (sdb, [.readline none])
  | sdb, (line, getpass) :: rest =>
      match sdb_cli_line X sdb line getpass with
      | none => none
      | some (sdb1, t) =>
          match sdb_cli_loop X sdb1 rest with
          | none => none
          | some (sdb2, t2) => some (sdb2, Event.readline (some line) :: t ++ t2)

/-- The function `sdb_cli`: open the store (exit with a failure status if that
fails), run the loop, close the store. -/
def sdb_cli (e : OpenEnv) (X : Env) (input : List (String × Option String)) :
    Option (List Event) :=
  match sdb_open e with
  | (none, t) => some (t ++ [.err_exit])
  | (some sdb, t) =>
      match sdb_cli_loop X sdb input with
      | none => none
      | some (sdb1, t1) => some (t ++ t1 ++ sdb_close sdb1)

/-! ## The container codec behind `storage_write_data` and `storage_read_data`

The codec (`storage.h`) is called by `sdb.c` and exercised by
`src/tests/t_storage.c`, but its implementation is not among the sources. -/

/-- The cipher suites the tests run with: `"aes-256-cbc"` and `"chacha20"`. -/
inductive Cipher where
  | aes_256_cbc
  | chacha20
deriving DecidableEq, Repr

/-- Modelled from the spec: the cipher-suite tag stored in a container file,
one byte per suite (the implementation of the codec is missing). -/
def Cipher.tag : Cipher → Nat
  | .aes_256_cbc => 1
  | .chacha20 => 2

/-- Modelled from the spec: the cryptographic primitives the codec builds on
(the implementation of the codec and of its primitives is missing).  A suite
has a fixed length of initialization value; `random` yields the requested
number of fresh bytes from a generator state; `encrypt` and `decrypt` work
under a key and an initialization value, and decryption recovers what was
encrypted; `mac` computes the integrity tag, of length `tag_len`, of a byte
string under a key. -/
structure Crypto where
  iv_len : Cipher → Nat
  tag_len : Nat
  random : Nat → Nat → List Nat
  encrypt : Cipher → List Nat → List Nat → List Nat → List Nat
  decrypt : Cipher → List Nat → List Nat → List Nat → Option (List Nat)
  mac : List Nat → List Nat → List Nat
  random_length : ∀ g n, (random g n).length = n
  mac_length : ∀ key data, (mac key data).length = tag_len
  decrypt_encrypt : ∀ c key iv p, decrypt c key iv (encrypt c key iv p) = some p

/-- Modelled from the spec: the Vault Context, the selected cipher suite and the
derived key material (the type `rvault_t` is declared in a header that is not
among the sources). -/
structure Vault where
  cipher : Cipher
  key : List Nat
deriving DecidableEq, Repr

/-- The error kinds of decoding named by the spec. -/
inductive CodecError where
  | corruption
  | cipher
deriving DecidableEq, Repr

/-- Modelled from the spec: `encode`, missing from the sources.  A container
holds the cipher-suite tag, a fresh initialization value, the integrity tag and
the ciphertext; the integrity tag covers the suite tag, the initialization
value and the ciphertext.  `g` is the state of the random generator. -/
def encode (L : Crypto) (vault : Vault) (g : Nat) (plaintext : List Nat) : List Nat :=
  let iv := L.random g (L.iv_len vault.cipher)
  let ct := L.encrypt vault.cipher vault.key iv plaintext
  let hdr := vault.cipher.tag :: iv
  hdr ++ L.mac vault.key (hdr ++ ct) ++ ct

/-- Modelled from the spec: the bytes of a container that its integrity tag
covers, everything but the integrity tag itself (missing from the sources). -/
def authenticated (L : Crypto) (vault : Vault) (c : List Nat) : List Nat :=
  c.take (1 + L.iv_len vault.cipher) ++ c.drop (1 + L.iv_len vault.cipher + L.tag_len)

/-- Modelled from the spec: `decode`, missing from the sources.  It checks the
suite tag against the context, verifies the integrity tag before any
decryption, and returns either the whole plaintext or an error and no
plaintext. -/
def decode (L : Crypto) (vault : Vault) (c : List Nat) : Except CodecError (List Nat) :=
  let n := 1 + L.iv_len vault.cipher
  if c.length < n + L.tag_len then .error .corruption
  else if c.head? ≠ some vault.cipher.tag then .error .cipher
  else
    let iv := (c.take n).drop 1
    let tag := (c.drop n).take L.tag_len
    let ct := c.drop (n + L.tag_len)
    if L.mac vault.key (authenticated L vault c) ≠ tag then .error .corruption
    else
      match L.decrypt vault.cipher vault.key iv ct with
      | none => .error .cipher
      | some p => .ok p

/-- Modelled from the spec: `storage_write_data(vault, fd, buf, len)`, missing
from the sources: the contents of the file afterwards and the returned number
of bytes written. -/
def storage_write_data (L : Crypto) (vault : Vault) (g : Nat) (buf : List Nat) :
    List Nat × Int :=
  let file := encode L vault g buf
  (file, file.length)

/-- Modelled from the spec: `storage_read_data(vault, fd, flen, &len)`, missing
from the sources: the first `flen` bytes of the file are decoded; the result is
the plaintext buffer (`*len` is its length), or `none` for `NULL`. -/
def storage_read_data (L : Crypto) (vault : Vault) (file : List Nat) (flen : Nat) :
    Option (List Nat) :=
  match decode L vault (file.take flen) with
  | .ok p => some p
  | .error _ => none

/-- Modelled from the spec: `str_tokenize`, declared in a header that is not
among the sources: the whitespace-delimited tokens of the line, at most `n` of
them. -/
def str_tokenize (line : String) (n : Nat) : List String :=
  (((line.data.splitOnP Char.isWhitespace).filter fun w => !w.isEmpty).map String.mk).take n

/-- An environment for the command loop: whitespace tokens, a database export
that lists the rows as bytes, and a container write that always succeeds. -/
def mock_env : Env where
  str_tokenize := fun line => str_tokenize line 2
  sqlite3_serialize := fun db =>
    match db.sdb with
    | none => some [83, 81, 76]
    | some t => some (83 :: 81 :: 76 :: t.rows.map fun r => r.id)
  storage_write_data := fun _ buf => buf.length + 1

/-- A store whose container file is not empty and does not decode. -/
def env_corrupt : OpenEnv where
  asprintf_ok := true
  open_fd := some 3
  fs_file_size := 64
  storage_read_data := none
  sqlite3_open_ok := true
  sqlite3_open_handle := true
  sqlite3_malloc64_ok := true
  sqlite3_deserialize := fun _ => some { sdb := some Table.empty }
  sdb_init_ok := true
  calloc_ok := true

/-- A store whose container file has just been created and is empty. -/
def env_empty : OpenEnv where
  asprintf_ok := true
  open_fd := some 3
  fs_file_size := 0
  storage_read_data := none
  sqlite3_open_ok := true
  sqlite3_open_handle := true
  sqlite3_malloc64_ok := true
  sqlite3_deserialize := fun _ => none
  sdb_init_ok := true
  calloc_ok := true

/-- The steps that `sdb_cli` itself makes around the execution of a command:
reading a line, synchronising, printing the usage text. -/
def Event.is_loop_step : Event → Bool
  | .sdb_sync => true
  | .sdb_usage => true
  | .readline _ => true
  | _ => false

/-- The handle used in the examples: descriptor 3 and a freshly initialised
table. -/
def sdb_fresh : Handle := { fd := 3, db := { sdb := some Table.empty } }

/-- The state after the reader has stored the bytes `bs` behind the first
`s.nbytes` bytes of the buffer. -/
def HexState.store (s : HexState) (bs : List Nat) : HexState :=
  { hf := false
    buf := s.buf.take s.nbytes ++ bs ++ s.buf.drop (s.nbytes + bs.length)
    nbytes := s.nbytes + bs.length }

/-! ## Theorems -/

theorem sdb_open_db_some_no_init (e : OpenEnv) (fd : Nat) (b : List Nat) (t : List Event)
    (ht : Event.sdb_init ∉ t) : Event.sdb_init ∉ (sdb_open_db e fd (some b) t).2 := by
  simp only [sdb_open_db, sdb_open_out]
  cases e.sqlite3_open_ok <;> cases e.sqlite3_malloc64_ok <;> cases e.calloc_ok <;>
    cases e.sqlite3_open_handle <;> cases e.sqlite3_deserialize b <;> simp [ht]

theorem sdb_open_db_no_read (e : OpenEnv) (fd : Nat) (buf : Option (List Nat))
    (t : List Event) (n : Int) (ht : Event.storage_read_data n ∉ t) :
    Event.storage_read_data n ∉ (sdb_open_db e fd buf t).2 := by
  simp only [sdb_open_db, sdb_open_out, sdb_init]
  cases buf <;> cases e.sqlite3_open_ok <;> cases e.sqlite3_malloc64_ok <;>
    cases e.calloc_ok <;> cases e.sdb_init_ok <;> cases e.sqlite3_open_handle <;> simp [ht]
  all_goals (split <;> simp [ht])

/-- C1: `sdb_open` tells an empty store from a corrupt one.  When the file
length is non-zero and `storage_read_data` fails, `sdb_open` returns no handle
and never calls `sdb_init`; `sdb_init` is called only when the file length is
zero; and when the file length is zero `storage_read_data` is not called. -/
theorem sdb_open_distinguishes_empty_from_corrupt (e : OpenEnv) :
    (e.fs_file_size ≠ 0 → e.storage_read_data = none →
      (sdb_open e).1 = none ∧ Event.sdb_init ∉ (sdb_open e).2) ∧
    (Event.sdb_init ∈ (sdb_open e).2 → e.fs_file_size = 0) ∧
    (e.fs_file_size = 0 → ∀ n, Event.storage_read_data n ∉ (sdb_open e).2) := by
  refine ⟨?_, ?_, ?_⟩
  · intro h1 h2
    simp only [sdb_open, sdb_open_out, h2, h1]
    cases e.asprintf_ok <;> cases e.open_fd <;> simp
    split <;> simp
  · intro h
    by_contra h0
    revert h
    simp only [sdb_open, sdb_open_out, h0]
    cases e.asprintf_ok <;> cases e.open_fd <;> simp
    split
    · simp
    · cases e.storage_read_data
      · simp
      · exact sdb_open_db_some_no_init e _ _ _ (by simp)
  · intro h0 n
    simp only [sdb_open, sdb_open_out, h0]
    cases e.asprintf_ok <;> cases e.open_fd <;> simp
    exact sdb_open_db_no_read e _ _ _ n (by simp)

/-- Witness for C1: a store with a 64-byte file that does not decode yields no
handle and no `sdb_init`; a store with an empty file is initialised by
`sdb_init` without a call of `storage_read_data`. -/
theorem sdb_open_distinguishes_empty_from_corrupt_witness :
    ((sdb_open env_corrupt).1 = none ∧ Event.sdb_init ∉ (sdb_open env_corrupt).2) ∧
    env_empty.fs_file_size = 0 ∧
    Event.storage_read_data 0 ∉ (sdb_open env_empty).2 :=
  ⟨(sdb_open_distinguishes_empty_from_corrupt env_corrupt).1 (by decide) rfl,
   (sdb_open_distinguishes_empty_from_corrupt env_empty).2.1 (by decide),
   (sdb_open_distinguishes_empty_from_corrupt env_empty).2.2 rfl 0⟩

theorem sdb_sync_no_loop_step (X : Env) (sdb : Handle) :
    ∀ e ∈ (sdb_sync X sdb).2, e.is_loop_step = false := by
  intro e he
  unfold sdb_sync at he
  split at he
  · simp at he; subst he; rfl
  · simp at he; rcases he with h | h | h <;> subst h <;> rfl

theorem sdb_query_no_loop_step (db : Image) (q : String) (k v : Option String) (r : Result)
    (h : sdb_query db q k v = some r) : ∀ e ∈ r.trace, e.is_loop_step = false := by
  unfold sdb_query at h
  split at h
  · cases h; simp [Event.is_loop_step]
  · split at h
    · cases h; simp [Event.is_loop_step]
    · split at h
      · cases h; simp [Event.is_loop_step]
      · split at h
        · cases h
        · cases h
          intro e he
          simp only [List.mem_cons, List.mem_flatten, List.mem_map] at he
          rcases he with he | ⟨l, ⟨cols, _, hl⟩, he⟩
          · subst he; rfl
          · subst hl
            simp only [List.mem_map] at he
            obtain ⟨c, _, hc⟩ := he
            subst hc; rfl

theorem sdb_exec_loop_no_loop_step (gp : Option String) (db : Image) (tok0 : String)
    (tok1 : Option String) (cmds : List (String × Nat × String)) (r : Result)
    (h : sdb_exec_loop gp db tok0 tok1 cmds = some r) :
    ∀ e ∈ r.trace, e.is_loop_step = false := by
  induction cmds with
  | nil => simp [sdb_exec_loop] at h; subst h; simp
  | cons c rest ih =>
      obtain ⟨cmd, params, query⟩ := c
      unfold sdb_exec_loop at h
      by_cases hc : strcasecmp_eq cmd tok0 = true
      · simp only [hc, Bool.not_true, Bool.false_eq_true, if_false] at h
        generalize (if params ≥ 1 then tok1 else none) = key at h
        generalize (if params ≥ 2 then gp else none) = secret at h
        have ht0 : ∀ e ∈ (if params ≥ 2 then [Event.getpass] else []),
            e.is_loop_step = false := by
          split <;> simp [Event.is_loop_step]
        revert ht0
        generalize (if params ≥ 2 then [Event.getpass] else []) = t0 at h
        intro ht0
        cases hq : sdb_query db query key secret with
        | none => rw [hq] at h; cases h
        | some r0 =>
            rw [hq] at h
            simp only [Option.some.injEq] at h
            subst h
            have hq0 := sdb_query_no_loop_step _ _ _ _ _ hq
            intro e he
            simp only [List.mem_append] at he
            rcases he with (he | he) | he
            · exact ht0 e he
            · exact hq0 e he
            · cases secret <;> simp at he
              subst he; rfl
      · simp only [Bool.not_eq_true] at hc
        simp only [hc, Bool.not_false, if_true] at h
        exact ih h

theorem sdb_exec_cmd_no_loop_step (X : Env) (gp : Option String) (db : Image) (line : String)
    (r : Result) (h : sdb_exec_cmd X gp db line = some r) :
    ∀ e ∈ r.trace, e.is_loop_step = false := by
  unfold sdb_exec_cmd at h
  split at h
  · cases h; simp
  · exact sdb_exec_loop_no_loop_step _ _ _ _ _ _ h

theorem count_eq_zero_of_no_loop_step (t : List Event) (a : Event)
    (ha : a.is_loop_step = true) (h : ∀ e ∈ t, e.is_loop_step = false) :
    t.count a = 0 := by
  rw [List.count_eq_zero]
  intro hm
  have := h a hm
  rw [ha] at this
  cases this

theorem sdb_exec_loop_no_match (gp : Option String) (db : Image) (tok0 : String)
    (tok1 : Option String) (cmds : List (String × Nat × String))
    (h : ∀ c ∈ cmds, strcasecmp_eq c.1 tok0 = false) :
    sdb_exec_loop gp db tok0 tok1 cmds = some { ret := -1, db := db, trace := [] } := by
  induction cmds with
  | nil => rfl
  | cons c rest ih =>
      obtain ⟨cmd, params, query⟩ := c
      have h1 : strcasecmp_eq cmd tok0 = false := h (cmd, params, query) (by simp)
      unfold sdb_exec_loop
      simp only [h1, Bool.not_false, if_true]
      exact ih (fun c hc => h c (by simp [hc]))

theorem sdb_exec_loop_no_table (gp : Option String) (tok0 : String)
    (tok1 : Option String) (cmds : List (String × Nat × String)) (r : Result)
    (h : sdb_exec_loop gp { sdb := none } tok0 tok1 cmds = some r) :
    r.ret = -1 ∧ r.db = { sdb := none } := by
  induction cmds with
  | nil => simp [sdb_exec_loop] at h; subst h; simp
  | cons c rest ih =>
      obtain ⟨cmd, params, query⟩ := c
      unfold sdb_exec_loop at h
      split at h
      · exact ih h
      · simp [sdb_query, sqlite3_prepare_v2] at h
        subst h; simp

theorem sdb_exec_cmd_failure_cases (X : Env) (gp : Option String) (db : Image)
    (line : String) (r : Result) (h : sdb_exec_cmd X gp db line = some r) :
    (X.str_tokenize line = [] → r.ret = -1) ∧
    ((∀ tok0 ∈ (X.str_tokenize line).head?, ∀ c ∈ sdb_cmds,
        strcasecmp_eq c.1 tok0 = false) → r.ret = -1) ∧
    (db.sdb = none → r.ret = -1) := by
  unfold sdb_exec_cmd at h
  refine ⟨?_, ?_, ?_⟩
  · intro h0
    rw [h0] at h
    cases h; rfl
  · intro h0
    split at h
    · cases h; rfl
    · rename_i tok0 more heq
      rw [sdb_exec_loop_no_match _ _ _ _ _ (h0 tok0 (by simp [heq]))] at h
      cases h; rfl
  · intro h0
    split at h
    · cases h; rfl
    · obtain ⟨t⟩ := db
      simp only at h0
      subst h0
      exact (sdb_exec_loop_no_table _ _ _ _ _ h).1

/-- C7: for a line the loop of `sdb_cli` processes, with `r` the result of
`sdb_exec_cmd`: the loop body runs to its end and the loop goes on with the
remaining lines; no line is read inside the body; if `r.ret` is non-zero
`sdb_sync` is not called and the usage text is printed once; if `r.ret` is zero
(in particular after a successful SET or DEL) `sdb_sync` is called exactly once,
before the next line is read, and no usage text is printed; and an empty line,
an unrecognised command name and a database without the table all give -1. -/
theorem sdb_cli_sync_only_after_success (X : Env) (sdb : Handle) (line : String)
    (gp : Option String) (r : Result) (h : sdb_exec_cmd X gp sdb.db line = some r) :
    ∃ t, sdb_cli_line X sdb line gp = some ({ fd := sdb.fd, db := r.db }, t) ∧
      (∀ rest, sdb_cli_loop X sdb ((line, gp) :: rest) =
        (sdb_cli_loop X { fd := sdb.fd, db := r.db } rest).map
          fun p => (p.1, Event.readline (some line) :: t ++ p.2)) ∧
      (∀ l, t.count (Event.readline l) = 0) ∧
      (r.ret ≠ 0 → t.count Event.sdb_sync = 0 ∧ t.count Event.sdb_usage = 1) ∧
      (r.ret = 0 → t.count Event.sdb_sync = 1 ∧ t.count Event.sdb_usage = 0) ∧
      (X.str_tokenize line = [] → r.ret = -1) ∧
      ((∀ tok0 ∈ (X.str_tokenize line).head?, ∀ c ∈ sdb_cmds,
          strcasecmp_eq c.1 tok0 = false) → r.ret = -1) ∧
      (sdb.db.sdb = none → r.ret = -1) := by
  have hr := sdb_exec_cmd_no_loop_step X gp sdb.db line r h
  have hs := sdb_sync_no_loop_step X { fd := sdb.fd, db := r.db }
  have hline : sdb_cli_line X sdb line gp = some ({ fd := sdb.fd, db := r.db },
      r.trace ++ (if r.ret = 0 then
          Event.sdb_sync :: (sdb_sync X { fd := sdb.fd, db := r.db }).2
        else [.sdb_usage]) ++ [.crypto_memzero line, .free]) := by
    simp only [sdb_cli_line, h]
  have c1 : ∀ a : Event, a.is_loop_step = true → r.trace.count a = 0 :=
    fun a ha => count_eq_zero_of_no_loop_step _ a ha hr
  have c2 : ∀ a : Event, a.is_loop_step = true →
      (sdb_sync X { fd := sdb.fd, db := r.db }).2.count a = 0 :=
    fun a ha => count_eq_zero_of_no_loop_step _ a ha hs
  refine ⟨_, hline, ?_, ?_, ?_, ?_, sdb_exec_cmd_failure_cases X gp sdb.db line r h⟩
  · intro rest
    simp only [sdb_cli_loop, hline]
    cases sdb_cli_loop X { fd := sdb.fd, db := r.db } rest <;> rfl
  · intro l
    by_cases h0 : r.ret = 0
    · simp [h0, List.count_cons, c1 (Event.readline l) rfl, c2 (Event.readline l) rfl]
    · simp [h0, List.count_cons, c1 (Event.readline l) rfl]
  · intro h0
    simp [h0, List.count_cons, c1 Event.sdb_sync rfl, c1 Event.sdb_usage rfl]
  · intro h0
    simp [h0, List.count_cons, c1 Event.sdb_sync rfl, c1 Event.sdb_usage rfl,
      c2 Event.sdb_sync rfl, c2 Event.sdb_usage rfl]

/-- Witness for C7: on a fresh table the line `SET a` with the secret `v`
succeeds, and the line `foo` fails. -/
theorem sdb_cli_sync_only_after_success_witness :
    (∃ t, sdb_cli_line mock_env sdb_fresh "SET a" (some "v")
        = some ({ fd := 3, db := { sdb := some { rows := [⟨1, some "a", some "v"⟩],
                                                   seq := 1 } } }, t) ∧
      t.count Event.sdb_sync = 1 ∧ t.count Event.sdb_usage = 0) ∧
    (∃ t, sdb_cli_line mock_env sdb_fresh "foo" none = some (sdb_fresh, t) ∧
      t.count Event.sdb_sync = 0 ∧ t.count Event.sdb_usage = 1) := by
  constructor
  · obtain ⟨t, h1, _, _, _, h5, _⟩ :=
      sdb_cli_sync_only_after_success mock_env sdb_fresh "SET a" (some "v")
        { ret := 0, db := { sdb := some { rows := [⟨1, some "a", some "v"⟩], seq := 1 } },
          trace := [.getpass, .sqlite3_step .insert_or_replace (some "a") (some "v"),
                    .crypto_memzero "v"] } (by decide)
    exact ⟨t, h1, h5 rfl⟩
  · obtain ⟨t, h1, _, _, h4, _⟩ :=
      sdb_cli_sync_only_after_success mock_env sdb_fresh "foo" none
        { ret := -1, db := sdb_fresh.db, trace := [] } (by decide)
    exact ⟨t, h1, h4 (by decide)⟩

theorem strcasecmp_eq_false_of (a b c : String) (h : strcasecmp_eq a c = true)
    (hab : strcasecmp_eq b a = false) : strcasecmp_eq b c = false := by
  unfold strcasecmp_eq at *
  rw [beq_iff_eq] at h
  rw [← h]
  exact hab

theorem sqlite3_column_type_ne_zero (c : Option String) :
    (sqlite3_column_type c != 0) = true := by
  cases c <;> rfl

theorem printed_single_column (f : Row → Option String) (l : List Row) :
    (l.map ((fun cols => List.map Event.printf
        (List.filter (fun c => sqlite3_column_type c != 0) cols)) ∘ fun r => [f r])).flatten
      = l.map fun r => Event.printf (f r) := by
  induction l with
  | nil => rfl
  | cons a l ih =>
      simp only [List.map_cons, List.flatten_cons, ih, Function.comp_apply]
      simp [List.filter, sqlite3_column_type_ne_zero]

theorem sdb_exec_cmd_get (X : Env) (gp : Option String) (t : Table) (line tok0 : String)
    (more : List String) (htok : X.str_tokenize line = tok0 :: more)
    (hcmd : strcasecmp_eq "GET" tok0 = true) :
    sdb_exec_cmd X gp { sdb := some t } line
      = some { ret := 0, db := { sdb := some t },
               trace := Event.sqlite3_step .select_val more.head? none ::
                 ((t.rows.filter fun r => sql_eq r.key more.head?).map
                   fun r => Event.printf r.val) } := by
  have h1 : strcasecmp_eq "LS" tok0 = false :=
    strcasecmp_eq_false_of "GET" "LS" tok0 hcmd (by decide)
  simp [sdb_exec_cmd, htok, sdb_cmds, sdb_exec_loop, hcmd, h1, sdb_query, sqlite3_prepare_v2,
    sqlite3_run, Stmt.nparams]
  exact printed_single_column _ _

/-- C8, the behaviour of the code: a line that consists of the command name
alone is not rejected.  On a fresh table with the secret `x` entered, `SET`
returns 0 after running its query with an unbound key, which inserts a row whose
key is `NULL`; `GET` and `DEL` on the table so obtained return 0 after running
their queries, and `LS` then prints a `NULL` text. -/
theorem sdb_exec_cmd_accepts_missing_key :
    sdb_exec_cmd mock_env (some "x") { sdb := some Table.empty } "SET"
      = some { ret := 0, db := { sdb := some { rows := [⟨1, none, some "x"⟩], seq := 1 } },
               trace := [.getpass, .sqlite3_step .insert_or_replace none (some "x"),
                         .crypto_memzero "x"] } ∧
    sdb_exec_cmd mock_env none { sdb := some { rows := [⟨1, none, some "x"⟩], seq := 1 } } "GET"
      = some { ret := 0, db := { sdb := some { rows := [⟨1, none, some "x"⟩], seq := 1 } },
               trace := [.sqlite3_step .select_val none none] } ∧
    sdb_exec_cmd mock_env none { sdb := some { rows := [⟨1, none, some "x"⟩], seq := 1 } } "DEL"
      = some { ret := 0, db := { sdb := some { rows := [⟨1, none, some "x"⟩], seq := 1 } },
               trace := [.sqlite3_step .delete_key none none] } ∧
    sdb_exec_cmd mock_env none { sdb := some { rows := [⟨1, none, some "x"⟩], seq := 1 } } "LS"
      = some { ret := 0, db := { sdb := some { rows := [⟨1, none, some "x"⟩], seq := 1 } },
               trace := [.sqlite3_step .select_keys none none, .printf none] } := by
  decide

/-- C9, the behaviour of the code: `sdb_sync` never zeroes anything.  Whatever
the collaborators answer, its calls are `sqlite3_serialize` alone when the
export fails, and otherwise `sqlite3_serialize`, `storage_write_data` on the
exported buffer and `sqlite3_free` on the same buffer with its contents intact;
no call of `crypto_memzero` and no `sbuffer_free` occurs. -/
theorem sdb_sync_releases_buffer_unerased (X : Env) (sdb : Handle) :
    (sdb_sync X sdb).2
      = (match X.sqlite3_serialize sdb.db with
         | none => [Event.sqlite3_serialize]
         | some buf => [.sqlite3_serialize, .storage_write_data sdb.fd buf,
                        .sqlite3_free buf]) ∧
    (∀ s, Event.crypto_memzero s ∉ (sdb_sync X sdb).2) ∧
    (∀ b, Event.sbuffer_free b ∉ (sdb_sync X sdb).2) := by
  unfold sdb_sync
  cases X.sqlite3_serialize sdb.db <;> simp

/-- C5, the behaviour of the code: on a fresh store, `SET a` and then `SET b`,
both with the value `v`, leave a table in which `a` is gone; `GET a` then prints
nothing and `LS` lists `b` alone. -/
theorem set_same_value_drops_other_key :
    (sdb_cli_loop mock_env sdb_fresh
        [("SET a", some "v"), ("GET a", none), ("SET b", some "v"), ("GET a", none),
         ("GET b", none), ("LS", none)]).map
      (fun r => (r.1.db, r.2.filter fun e => e matches .readline _ | .printf _))
      = some ({ sdb := some { rows := [⟨2, some "b", some "v"⟩], seq := 2 } },
          [.readline (some "SET a"),
           .readline (some "GET a"), .printf (some "v"),
           .readline (some "SET b"),
           .readline (some "GET a"),
           .readline (some "GET b"), .printf (some "v"),
           .readline (some "LS"), .printf (some "b"),
           .readline none]) := by
  decide

theorem sdb_exec_cmd_set (X : Env) (v : String) (t : Table) (line tok0 : String)
    (more : List String) (htok : X.str_tokenize line = tok0 :: more)
    (hcmd : strcasecmp_eq "SET" tok0 = true) :
    sdb_exec_cmd X (some v) { sdb := some t } line
      = if ROWID_MAX < next_rowid t then none
        else some {
          ret := 0
          db := { sdb := some {
            rows := (t.rows.filter fun r => !(sql_eq r.key more.head? || sql_eq r.val (some v)))
                      ++ [{ id := next_rowid t, key := more.head?, val := some v }]
            seq := next_rowid t } }
          trace := [.getpass, .sqlite3_step .insert_or_replace more.head? (some v),
                    .crypto_memzero v] } := by
  have h1 : strcasecmp_eq "LS" tok0 = false :=
    strcasecmp_eq_false_of "SET" "LS" tok0 hcmd (by decide)
  have h2 : strcasecmp_eq "GET" tok0 = false :=
    strcasecmp_eq_false_of "SET" "GET" tok0 hcmd (by decide)
  simp only [sdb_exec_cmd, htok, sdb_cmds, sdb_exec_loop, hcmd, h1, h2, sdb_query,
    sqlite3_prepare_v2, sqlite3_run, Stmt.nparams]
  by_cases h : ROWID_MAX < next_rowid t <;> simp [h]

theorem le_foldl_max_id (rows : List Row) (m : Nat) :
    m ≤ rows.foldl (fun m r => max m r.id) m ∧
    ∀ r ∈ rows, r.id ≤ rows.foldl (fun m r => max m r.id) m := by
  induction rows generalizing m with
  | nil => simp
  | cons a l ih =>
      simp only [List.foldl_cons, List.mem_cons, forall_eq_or_imp]
      have h := ih (max m a.id)
      refine ⟨le_trans (le_max_left _ _) h.1, le_trans (le_max_right _ _) h.1, h.2⟩

theorem id_lt_next_rowid (t : Table) (r : Row) (hr : r ∈ t.rows) : r.id < next_rowid t := by
  unfold next_rowid
  have := (le_foldl_max_id t.rows 0).2 r hr
  omega

theorem schema_insert_or_replace (t : Table) (hs : Schema t) (k v : Option String) :
    Schema { rows := (t.rows.filter fun r => !(sql_eq r.key k || sql_eq r.val v))
                      ++ [{ id := next_rowid t, key := k, val := v }]
             seq := next_rowid t } := by
  obtain ⟨hid, hkey, hval, _⟩ := hs
  have hsub : (t.rows.filter fun r => !(sql_eq r.key k || sql_eq r.val v)).Sublist t.rows :=
    List.filter_sublist _
  have hmem : ∀ r ∈ t.rows.filter (fun r => !(sql_eq r.key k || sql_eq r.val v)),
      r ∈ t.rows ∧ sql_eq r.key k = false ∧ sql_eq r.val v = false := by
    intro r hr
    simp only [List.mem_filter, Bool.not_eq_true', Bool.or_eq_false_iff] at hr
    exact hr
  refine ⟨?_, ?_, ?_, ?_⟩
  · simp only [List.map_append, List.map_cons, List.map_nil]
    rw [List.nodup_append]
    refine ⟨hid.sublist (hsub.map _), by simp, ?_⟩
    intro a ha hb
    simp only [List.mem_singleton] at hb
    simp only [List.mem_map] at ha
    obtain ⟨r, hr, rfl⟩ := ha
    have := id_lt_next_rowid t r (hmem r hr).1
    omega
  · simp only [List.filterMap_append]
    rw [List.nodup_append]
    refine ⟨hkey.sublist (hsub.filterMap _), by cases k <;> simp, ?_⟩
    intro a ha hb
    cases k with
    | none => simp at hb
    | some k0 =>
        simp only [List.filterMap_cons, List.filterMap_nil, List.mem_singleton] at hb
        simp only [List.mem_filterMap] at ha
        obtain ⟨r, hr, hra⟩ := ha
        have h2 := (hmem r hr).2.1
        rw [hra] at h2
        simp only [sql_eq, decide_eq_false_iff_not] at h2
        subst hb
        exact h2 rfl
  · simp only [List.filterMap_append]
    rw [List.nodup_append]
    refine ⟨hval.sublist (hsub.filterMap _), by cases v <;> simp, ?_⟩
    intro a ha hb
    cases v with
    | none => simp at hb
    | some v0 =>
        simp only [List.filterMap_cons, List.filterMap_nil, List.mem_singleton] at hb
        simp only [List.mem_filterMap] at ha
        obtain ⟨r, hr, hra⟩ := ha
        have h2 := (hmem r hr).2.2
        rw [hra] at h2
        simp only [sql_eq, decide_eq_false_iff_not] at h2
        subst hb
        exact h2 rfl
  · intro r hr
    simp only [List.mem_append, List.mem_singleton] at hr
    rcases hr with hr | hr
    · exact le_of_lt (id_lt_next_rowid t r (hmem r hr).1)
    · subst hr; exact le_refl _

theorem filter_key_insert_or_replace (rows : List Row) (k v : String) (id : Nat) :
    ((rows.filter fun r : Row => !(sql_eq r.key (some k) || sql_eq r.val (some v)))
        ++ [({ id := id, key := some k, val := some v } : Row)]).filter
      (fun r => sql_eq r.key (some k))
      = [({ id := id, key := some k, val := some v } : Row)] := by
  rw [List.filter_append, List.filter_filter]
  have h1 : (rows.filter fun r : Row =>
      sql_eq r.key (some k) && !(sql_eq r.key (some k) || sql_eq r.val (some v))) = [] := by
    rw [List.filter_eq_nil_iff]
    intro r _
    cases sql_eq r.key (some k) <;> simp
  rw [h1]
  simp [List.filter, sql_eq]

theorem sql_eq_some (a : Option String) (k : String) :
    sql_eq a (some k) = decide (a = some k) := by
  cases a <;> simp [sql_eq]

/-- C4: SET has replace semantics.  For every table that satisfies the schema,
every key `k` and value `v`, and every line that the loop processes as `SET k`
with `v` entered as the secret: the command succeeds whenever a row id is left;
and whenever it succeeds, the table afterwards satisfies the schema, holds
exactly one row for `k`, and that row carries `v`, so that any line processed as
`GET k` succeeds and prints exactly `v`, whether or not `k` was present
before. -/
theorem set_replaces_and_get_returns_value (X : Env) (t : Table) (hs : Schema t)
    (k v : String) (line tok0 : String) (more : List String)
    (line2 tok2 : String) (more2 : List String) (gp : Option String)
    (htok : X.str_tokenize line = tok0 :: k :: more)
    (hcmd : strcasecmp_eq "SET" tok0 = true)
    (htok2 : X.str_tokenize line2 = tok2 :: k :: more2)
    (hcmd2 : strcasecmp_eq "GET" tok2 = true) :
    (next_rowid t ≤ ROWID_MAX →
      ∃ r, sdb_exec_cmd X (some v) { sdb := some t } line = some r ∧ r.ret = 0) ∧
    ∀ r, sdb_exec_cmd X (some v) { sdb := some t } line = some r → r.ret = 0 →
      ∃ t1, r.db = { sdb := some t1 } ∧ Schema t1 ∧
        t1.rows.filter (fun row => decide (row.key = some k))
          = [{ id := next_rowid t, key := some k, val := some v }] ∧
        sdb_exec_cmd X gp r.db line2
          = some { ret := 0, db := r.db,
                   trace := [.sqlite3_step .select_val (some k) none, .printf (some v)] } := by
  have hset := sdb_exec_cmd_set X v t line tok0 (k :: more) htok hcmd
  simp only [List.head?_cons] at hset
  refine ⟨?_, ?_⟩
  · intro hid
    rw [hset, if_neg (by omega)]
    exact ⟨_, rfl, rfl⟩
  · intro r hr _
    rw [hset] at hr
    split at hr
    · cases hr
    · simp only [Option.some.injEq] at hr
      subst hr
      refine ⟨_, rfl, schema_insert_or_replace t hs (some k) (some v), ?_, ?_⟩
      · have := filter_key_insert_or_replace t.rows k v (next_rowid t)
        simp only [sql_eq_some] at this ⊢
        exact this
      · rw [sdb_exec_cmd_get X gp _ line2 tok2 (k :: more2) htok2 hcmd2]
        simp only [List.head?_cons]
        rw [filter_key_insert_or_replace]
        rfl

/-- Witness for C4: on a table in which `alpha` holds `secret1`, the line
`SET alpha` with `secret2` entered, followed by `GET alpha`. -/
theorem set_replaces_and_get_returns_value_witness :
    ∃ r, sdb_exec_cmd mock_env (some "secret2")
        { sdb := some { rows := [⟨1, some "alpha", some "secret1"⟩], seq := 1 } }
        "SET alpha" = some r ∧ r.ret = 0 ∧
      ∃ t1, r.db = { sdb := some t1 } ∧ Schema t1 ∧
        t1.rows.filter (fun row => decide (row.key = some "alpha"))
          = [{ id := 2, key := some "alpha", val := some "secret2" }] ∧
        sdb_exec_cmd mock_env none r.db "GET alpha"
          = some { ret := 0, db := r.db,
                   trace := [.sqlite3_step .select_val (some "alpha") none,
                             .printf (some "secret2")] } := by
  obtain ⟨h1, h2⟩ := set_replaces_and_get_returns_value mock_env
    { rows := [⟨1, some "alpha", some "secret1"⟩], seq := 1 } (by decide)
    "alpha" "secret2" "SET alpha" "SET" [] "GET alpha" "GET" [] none
    (by decide) (by decide) (by decide) (by decide)
  obtain ⟨r, hr, hret⟩ := h1 (by decide)
  obtain ⟨t1, ht1⟩ := h2 r hr hret
  exact ⟨r, hr, hret, t1, ht1⟩

theorem decode_of_parts (L : Crypto) (vault : Vault) (iv tag ct : List Nat)
    (hiv : iv.length = L.iv_len vault.cipher) (htag : tag.length = L.tag_len) :
    decode L vault ((vault.cipher.tag :: iv) ++ tag ++ ct)
      = if L.mac vault.key ((vault.cipher.tag :: iv) ++ ct) ≠ tag then .error .corruption
        else
          match L.decrypt vault.cipher vault.key iv ct with
          | none => .error .cipher
          | some p => .ok p := by
  have hlen : (vault.cipher.tag :: iv).length = 1 + L.iv_len vault.cipher := by
    simp [hiv]; omega
  have h1 : ((vault.cipher.tag :: iv) ++ tag ++ ct).take (1 + L.iv_len vault.cipher)
      = vault.cipher.tag :: iv := by
    rw [List.append_assoc]; exact List.take_left' hlen
  have h2 : ((vault.cipher.tag :: iv) ++ tag ++ ct).drop (1 + L.iv_len vault.cipher)
      = tag ++ ct := by
    rw [List.append_assoc]; exact List.drop_left' hlen
  have h3 : ((vault.cipher.tag :: iv) ++ tag ++ ct).drop
      (1 + L.iv_len vault.cipher + L.tag_len) = ct := by
    apply List.drop_left'
    simp [hiv, htag]; omega
  have h4 : ¬ ((vault.cipher.tag :: iv) ++ tag ++ ct).length
      < 1 + L.iv_len vault.cipher + L.tag_len := by
    simp [hiv, htag]; omega
  unfold decode authenticated
  simp only [h1, h2, h3, if_neg h4, List.take_left' htag]
  simp

/-- C2: container round trip.  For every plaintext buffer `p`, either cipher
suite, every key and every state of the random generator, `storage_write_data`
writes a non-empty file and returns its length, and `storage_read_data` on that
file with that length succeeds and returns a buffer of the length of `p` whose
bytes are those of `p`. -/
theorem storage_round_trip (L : Crypto) (cipher : Cipher) (key : List Nat) (g : Nat)
    (p : List Nat) :
    0 < (storage_write_data L { cipher := cipher, key := key } g p).2 ∧
    (storage_write_data L { cipher := cipher, key := key } g p).2
      = (storage_write_data L { cipher := cipher, key := key } g p).1.length ∧
    ∃ buf, storage_read_data L { cipher := cipher, key := key }
        (storage_write_data L { cipher := cipher, key := key } g p).1
        (storage_write_data L { cipher := cipher, key := key } g p).1.length = some buf ∧
      buf.length = p.length ∧ buf = p := by
  refine ⟨?_, rfl, p, ?_, rfl, rfl⟩
  · simp [storage_write_data, encode]; omega
  · simp only [storage_read_data, storage_write_data, List.take_length, encode]
    rw [decode_of_parts L _ _ _ _ (L.random_length _ _) (L.mac_length _ _)]
    simp [L.decrypt_encrypt]

theorem hex_digit_read (d : Nat) (hd : d < 16) :
    tolower (hexDigit d % 256) = hexDigit d ∧ isxdigit (hexDigit d) = true ∧
    (hexDigit d - (if hexDigit d ≥ 97 then 97 - 10 else 48)) % 256 = d := by
  revert d
  decide

theorem byte_of_nibbles (x : Nat) (hx : x < 256) :
    (((x % 256 / 16) <<< 4) ||| (x % 256 % 16)) % 256 = x := by
  revert x
  decide!

theorem hex_read_char_sep (s : HexState) (c : Nat) (hc : c = 32 ∨ c = 10) :
    hex_read_char s c = s := by
  rcases hc with h | h <;> subst h <;> rfl

theorem hex_read_char_digit (s : HexState) (d : Nat) (hd : d < 16) :
    hex_read_char s (hexDigit d) =
      if s.hf then
        { hf := false
          buf := s.buf.set (s.nbytes - 1) ((((s.buf.getD (s.nbytes - 1) 0) <<< 4) ||| d) % 256)
          nbytes := s.nbytes }
      else { hf := true, buf := s.buf.set s.nbytes d, nbytes := s.nbytes + 1 } := by
  have h := hex_digit_read d hd
  unfold hex_read_char
  simp only [h.1, h.2.1, h.2.2, Bool.not_true, Bool.false_eq_true, if_false]
  cases s.hf <;> simp

theorem hex_read_byte (s : HexState) (x : Nat) (hx : x < 256) (hf : s.hf = false)
    (hn : s.nbytes < s.buf.length) :
    (fmt02x x).foldl hex_read_char s = s.store [x] := by
  obtain ⟨hf0, buf, n⟩ := s
  simp only at hf hn
  subst hf
  have h3 := byte_of_nibbles x hx
  simp only [fmt02x, List.foldl_cons, List.foldl_nil]
  rw [hex_read_char_digit _ _ (by omega), hex_read_char_digit _ _ (by omega)]
  simp only [Bool.false_eq_true, if_false, if_true, Nat.add_sub_cancel, HexState.store,
    List.length_singleton]
  have hget : (buf.set n (x % 256 / 16)).getD n 0 = x % 256 / 16 := by
    simp [hn]
  rw [hget, h3, List.set_set]
  congr 1
  rw [List.set_eq_take_append_cons_drop]
  simp [hn]

theorem store_buf_length (s : HexState) (bs : List Nat)
    (h : s.nbytes + bs.length ≤ s.buf.length) : (s.store bs).buf.length = s.buf.length := by
  simp only [HexState.store, List.length_append, List.length_take, List.length_drop]
  omega

theorem store_store (s : HexState) (a b : List Nat) (h : s.nbytes + a.length ≤ s.buf.length) :
    (s.store a).store b = s.store (a ++ b) := by
  have h1 : (s.buf.take s.nbytes ++ a).length = s.nbytes + a.length := by
    simp only [List.length_append, List.length_take]; omega
  simp only [HexState.store, List.length_append, HexState.mk.injEq, true_and]
  refine ⟨?_, by omega⟩
  rw [List.take_left' h1]
  have h2 : (s.buf.take s.nbytes ++ a ++ s.buf.drop (s.nbytes + a.length)).drop
      (s.nbytes + a.length + b.length) = s.buf.drop (s.nbytes + (a.length + b.length)) := by
    have h3 : s.nbytes + a.length + b.length
        = (s.buf.take s.nbytes ++ a).length + b.length := by rw [h1]
    rw [h3, List.drop_append, List.drop_drop]
    congr 1; omega
  rw [h2]
  simp

theorem store_nil (s : HexState) (hf : s.hf = false) : s.store [] = s := by
  obtain ⟨hf0, buf, n⟩ := s
  simp only at hf
  subst hf
  simp [HexState.store]

theorem hex_read_written (n : Nat) (bs : List Nat) :
    ∀ s : HexState, s.hf = false → (∀ x ∈ bs, x < 256) →
      s.nbytes + bs.length ≤ s.buf.length →
      (hex_write_loop n bs).foldl hex_read_char s = s.store bs := by
  induction n, bs using hex_write_loop.induct with
  | case1 n b0 b1 rest ih =>
      intro s hf hb hlen
      simp only [List.length_cons] at hlen
      have hb0 : b0 < 256 := hb b0 (by simp)
      have hb1 : b1 < 256 := hb b1 (by simp)
      simp only [hex_write_loop, List.foldl_append, List.foldl_cons, List.foldl_nil]
      rw [hex_read_byte s b0 hb0 hf (by omega)]
      have hl1 := store_buf_length s [b0] (by simp; omega)
      rw [hex_read_byte (s.store [b0]) b1 hb1 rfl (by rw [hl1]; simp [HexState.store]; omega)]
      rw [store_store s [b0] [b1] (by simp; omega)]
      have hl2 := store_buf_length s ([b0] ++ [b1]) (by simp; omega)
      rw [hex_read_char_sep _ _ (by split <;> simp)]
      rw [ih (s.store ([b0] ++ [b1])) rfl (fun x hx => hb x (by simp [hx]))
        (by rw [hl2]; simp [HexState.store]; omega)]
      rw [store_store s _ _ (by simp; omega)]
      rfl
  | case2 n b =>
      intro s hf hb hlen
      simp only [List.length_singleton] at hlen
      simp only [hex_write_loop]
      exact hex_read_byte s b (hb b (by simp)) hf (by omega)
  | case3 n =>
      intro s hf _ _
      simp only [hex_write_loop, List.foldl_nil]
      exact (store_nil s hf).symm

theorem hex_write_loop_length (n : Nat) (bs : List Nat) :
    (hex_write_loop n bs).length = 5 * (bs.length / 2) + 2 * (bs.length % 2) := by
  induction n, bs using hex_write_loop.induct with
  | case1 n b0 b1 rest ih =>
      simp only [hex_write_loop, List.length_append, List.length_cons, ih, fmt02x,
        List.length_nil]
      omega
  | case2 n b => simp [hex_write_loop, fmt02x]
  | case3 n => simp [hex_write_loop]

theorem hex_write_loop_append (n : Nat) (a : List Nat) :
    ∀ b : List Nat, a.length % 2 = 0 →
      hex_write_loop n (a ++ b) = hex_write_loop n a ++ hex_write_loop (n + a.length / 2) b := by
  induction n, a using hex_write_loop.induct with
  | case1 n b0 b1 rest ih =>
      intro b ha
      simp only [List.length_cons] at ha
      have h := ih b (by omega)
      have e : n + 1 + rest.length / 2 = n + (rest.length + 1 + 1) / 2 := by omega
      rw [e] at h
      show hex_write_loop n (b0 :: b1 :: (rest ++ b)) = _
      simp only [hex_write_loop, h, List.append_assoc, List.length_cons]
  | case2 n x =>
      intro b ha
      simp at ha
  | case3 n =>
      intro b _
      simp [hex_write_loop]

theorem store_buf_take (s : HexState) (bs : List Nat) (h : s.nbytes ≤ s.buf.length) :
    (s.store bs).buf.take (s.nbytes + bs.length) = s.buf.take s.nbytes ++ bs := by
  have h1 : (s.buf.take s.nbytes ++ bs).length = s.nbytes + bs.length := by
    simp only [List.length_append, List.length_take]; omega
  simp only [HexState.store]
  exact List.take_left' h1

theorem hex_read_loop_eof (heap fuel : Nat) (stream : List Nat) (alloc_len : Nat)
    (buf : List Nat) (nbytes : Nat) :
    hex_read_loop heap (fuel + 1) stream true alloc_len buf nbytes = some (buf, nbytes) := by
  simp [hex_read_loop]

theorem hex_read_loop_block (heap fuel : Nat) (stream : List Nat) (alloc_len : Nat)
    (buf : List Nat) (nbytes : Nat) (hne : stream ≠ [])
    (hgrow : alloc_len - nbytes < BUF_SIZE) (hheap : alloc_len + BUF_GROW_SIZE ≤ heap) :
    hex_read_loop heap (fuel + 1) stream false alloc_len buf nbytes
      = hex_read_loop heap fuel (stream.drop BUF_SIZE)
          (decide ((stream.take BUF_SIZE).length < BUF_SIZE)) (alloc_len + BUF_GROW_SIZE)
          ((stream.take BUF_SIZE).foldl hex_read_char
            { hf := false
              buf := buf.take nbytes ++ List.replicate (alloc_len + BUF_GROW_SIZE - nbytes) 0
              nbytes := nbytes }).buf
          ((stream.take BUF_SIZE).foldl hex_read_char
            { hf := false
              buf := buf.take nbytes ++ List.replicate (alloc_len + BUF_GROW_SIZE - nbytes) 0
              nbytes := nbytes }).nbytes := by
  have h0 : ¬ heap < alloc_len + BUF_GROW_SIZE := by omega
  have h1 : (stream.take BUF_SIZE).length ≠ 0 := by
    cases stream with
    | nil => exact absurd rfl hne
    | cons a l => simp [BUF_SIZE]
  rw [hex_read_loop]
  simp only [Bool.false_eq_true, if_false, hgrow, decide_True, if_true, h0, decide_False,
    Bool.and_false, h1]

theorem hex_write_loop_ne_nil (n : Nat) (bs : List Nat) (h : bs ≠ []) :
    hex_write_loop n bs ≠ [] := by
  intro h0
  have h1 := hex_write_loop_length n bs
  rw [h0] at h1
  have h2 : 0 < bs.length := List.length_pos.mpr h
  simp only [List.length_nil] at h1
  omega

theorem hex_read_loop_nil (heap fuel alloc_len : Nat) (buf : List Nat) (nbytes : Nat)
    (hgrow : alloc_len - nbytes < BUF_SIZE) (hheap : alloc_len + BUF_GROW_SIZE ≤ heap) :
    hex_read_loop heap (fuel + 1) [] false alloc_len buf nbytes
      = some (buf.take nbytes ++ List.replicate (alloc_len + BUF_GROW_SIZE - nbytes) 0,
          nbytes) := by
  have h0 : ¬ heap < alloc_len + BUF_GROW_SIZE := by omega
  rw [hex_read_loop]
  simp only [Bool.false_eq_true, if_false, hgrow, decide_True, if_true, h0, decide_False,
    Bool.and_false, List.take_nil, List.length_nil]

theorem hex_round_trip_one_block (heap : Nat) (b : List Nat) (hb : ∀ x ∈ b, x < 256)
    (hlen : b.length ≤ 409) (hheap : 1024 ≤ heap) :
    ∃ buf, hex_read_arbitrary heap (hex_write_wrapped b).1 = some (buf, b.length) ∧
      buf.take b.length = b := by
  have hB : BUF_SIZE = 1024 := rfl
  have hG : BUF_GROW_SIZE = 1024 := rfl
  have hl := hex_write_loop_length 0 b
  have hl2 : (hex_write_loop 0 b).length < 1024 := by omega
  have hfuel : (hex_write_loop 0 b).length / BUF_SIZE + 2 = 1 + 1 := by
    rw [hB]; omega
  simp only [hex_read_arbitrary, hex_write_wrapped, hfuel]
  by_cases hnil : b = []
  · subst hnil
    refine ⟨_, hex_read_loop_nil heap 1 0 [] 0 (by omega) (by omega), by simp⟩
  · have htake : (hex_write_loop 0 b).take BUF_SIZE = hex_write_loop 0 b :=
      List.take_of_length_le (by omega)
    rw [hex_read_loop_block heap 1 _ 0 [] 0 (hex_write_loop_ne_nil 0 b hnil)
      (by omega) (by omega)]
    rw [htake, show decide ((hex_write_loop 0 b).length < BUF_SIZE) = true from by
      simp only [decide_eq_true_eq]; omega]
    rw [hex_read_loop_eof]
    rw [hex_read_written 0 b _ rfl hb (by simp only [List.length_append, List.length_take,
      List.length_replicate, List.length_nil]; omega)]
    generalize List.take 0 ([] : List Nat) ++ List.replicate (0 + BUF_GROW_SIZE - 0) 0 = z
    have hn : (HexState.store ⟨false, z, 0⟩ b).nbytes = b.length := by
      simp only [HexState.store, Nat.zero_add]
    have := store_buf_take ⟨false, z, 0⟩ b (Nat.zero_le _)
    rw [hn]
    refine ⟨_, rfl, ?_⟩
    simpa only [Nat.zero_add, List.take_zero, List.nil_append] using this

theorem hex_round_trip_two_blocks (heap : Nat) (b : List Nat) (hb : ∀ x ∈ b, x < 256)
    (hlo : 410 ≤ b.length) (hlen : b.length ≤ 819) (hheap : 2048 ≤ heap) :
    ∃ buf, hex_read_arbitrary heap (hex_write_wrapped b).1 = some (buf, b.length) ∧
      buf.take b.length = b := by
  have hB : BUF_SIZE = 1024 := rfl
  have hG : BUF_GROW_SIZE = 1024 := rfl
  obtain ⟨a0, x, y, r, rfl, ha0⟩ : ∃ a0 x y r, b = a0 ++ x :: y :: r ∧ a0.length = 408 := by
    have h1 : (b.drop 408).length = b.length - 408 := List.length_drop _ _
    match hd : b.drop 408 with
    | [] => rw [hd] at h1; simp at h1; omega
    | [_] => rw [hd] at h1; simp at h1; omega
    | x :: y :: r =>
        refine ⟨b.take 408, x, y, r, ?_, ?_⟩
        · rw [← hd, List.take_append_drop]
        · rw [List.length_take]; omega
  simp only [List.length_append, List.length_cons] at hlo hlen
  have hx : x < 256 := hb x (by simp)
  have hy : y < 256 := hb y (by simp)
  have ha : ∀ v ∈ a0, v < 256 := fun v hv => hb v (by simp [hv])
  have hr : ∀ v ∈ r, v < 256 := fun v hv => hb v (by simp [hv])
  have htext : hex_write_loop 0 (a0 ++ x :: y :: r)
      = (hex_write_loop 0 a0 ++ fmt02x x ++ fmt02x y) ++ 32 :: hex_write_loop 205 r := by
    rw [hex_write_loop_append 0 a0 _ (by omega), ha0]
    simp only [hex_write_loop, List.append_assoc, List.singleton_append]
    rfl
  have hl0 := hex_write_loop_length 0 a0
  have hlr := hex_write_loop_length 205 r
  have hb1 : (hex_write_loop 0 a0 ++ fmt02x x ++ fmt02x y).length = BUF_SIZE := by
    simp only [List.length_append, hl0, fmt02x, List.length_cons, List.length_nil]
    omega
  have hb2 : (32 :: hex_write_loop 205 r).length < BUF_SIZE := by
    simp only [List.length_cons, hlr]; omega
  have hfuel : (hex_write_loop 0 (a0 ++ x :: y :: r)).length / BUF_SIZE + 2 = 2 + 1 := by
    rw [htext, List.length_append, hb1]
    simp only [List.length_cons, hlr, hB]
    omega
  simp only [hex_read_arbitrary, hex_write_wrapped, hfuel]
  rw [htext]
  rw [hex_read_loop_block heap 2 _ 0 [] 0 (by simp) (by omega) (by omega)]
  rw [List.take_left' hb1, List.drop_left' hb1, hb1]
  generalize hz : List.take 0 ([] : List Nat) ++ List.replicate (0 + BUF_GROW_SIZE - 0) 0 = z
  have hzl : z.length = 1024 := by
    rw [← hz]; simp only [List.length_append, List.length_take, List.length_replicate,
      List.length_nil]; omega
  have hs1 : (hex_write_loop 0 a0 ++ fmt02x x ++ fmt02x y).foldl hex_read_char ⟨false, z, 0⟩
      = HexState.store ⟨false, z, 0⟩ (a0 ++ [x] ++ [y]) := by
    simp only [List.foldl_append]
    rw [hex_read_written 0 a0 _ rfl ha (by simp only [hzl]; omega)]
    have e1 := store_buf_length ⟨false, z, 0⟩ a0 (by simp only [hzl]; omega)
    rw [hex_read_byte _ x hx rfl (by rw [e1]; simp only [HexState.store, hzl]; omega)]
    rw [store_store _ _ _ (by simp only [hzl]; omega)]
    have e2 := store_buf_length ⟨false, z, 0⟩ (a0 ++ [x])
      (by simp only [hzl, List.length_append, List.length_singleton]; omega)
    rw [hex_read_byte _ y hy rfl (by
      rw [e2]; simp only [HexState.store, hzl, List.length_append, List.length_singleton]
      omega)]
    rw [store_store _ _ _ (by
      simp only [hzl, List.length_append, List.length_singleton]; omega)]
  rw [hs1]
  have hn1 : (HexState.store ⟨false, z, 0⟩ (a0 ++ [x] ++ [y])).nbytes = 410 := by
    simp only [HexState.store, List.length_append, List.length_singleton, ha0]
  have ht1 := store_buf_take ⟨false, z, 0⟩ (a0 ++ [x] ++ [y]) (Nat.zero_le _)
  simp only [Nat.zero_add, List.take_zero, List.nil_append, List.length_append,
    List.length_singleton, ha0] at ht1
  rw [hn1]
  generalize (HexState.store ⟨false, z, 0⟩ (a0 ++ [x] ++ [y])).buf = buf1 at ht1 ⊢
  rw [show decide (BUF_SIZE < BUF_SIZE) = false from by simp]
  rw [hex_read_loop_block heap 1 _ _ buf1 410 (by simp) (by omega) (by omega)]
  rw [List.take_of_length_le (le_of_lt hb2),
    show decide ((32 :: hex_write_loop 205 r).length < BUF_SIZE) = true from by
      simp only [decide_eq_true_eq]; exact hb2]
  rw [hex_read_loop_eof]
  simp only [List.foldl_cons]
  rw [hex_read_char_sep _ 32 (Or.inl rfl)]
  rw [hex_read_written 205 r _ rfl hr (by
    simp only [List.length_append, List.length_take, List.length_replicate]; omega)]
  generalize hz2 : List.take 410 buf1 ++
    List.replicate (0 + BUF_GROW_SIZE + BUF_GROW_SIZE - 410) 0 = z2
  have hn2 : (HexState.store ⟨false, z2, 410⟩ r).nbytes
      = (a0 ++ x :: y :: r).length := by
    simp only [HexState.store, List.length_append, List.length_cons, ha0]; omega
  have ht2 := store_buf_take ⟨false, z2, 410⟩ r (by
    rw [← hz2]; simp only [List.length_append, List.length_take, List.length_replicate]; omega)
  rw [hn2]
  refine ⟨_, rfl, ?_⟩
  have e3 : (a0 ++ x :: y :: r).length = 410 + r.length := by
    simp only [List.length_append, List.length_cons, ha0]; omega
  rw [e3, ht2]
  have e4 : z2.take 410 = a0 ++ [x] ++ [y] := by
    rw [← hz2, ← ht1]
    apply List.take_left'
    rw [ht1]; simp only [List.length_append, List.length_singleton, ha0]
  simp only [e4, List.append_assoc, List.singleton_append, List.cons_append, List.nil_append]

/-- The hex round trip holds for every buffer of at most 819 bytes: the text that
`hex_write_wrapped` writes for it spans at most two read blocks, the first of
which ends between two bytes, and `hex_read_arbitrary` returns a buffer whose
first `*outlen` bytes are the original ones, with `*outlen` the original
length. -/
theorem hex_round_trip_short (heap : Nat) (b : List Nat) (hb : ∀ x ∈ b, x < 256)
    (hlen : b.length ≤ 819) (hheap : 2048 ≤ heap) :
    ∃ buf, hex_read_arbitrary heap (hex_write_wrapped b).1 = some (buf, b.length) ∧
      buf.take b.length = b := by
  by_cases h : b.length ≤ 409
  · exact hex_round_trip_one_block heap b hb h (by omega)
  · exact hex_round_trip_two_blocks heap b hb (by omega) hlen hheap

/-- C10, the behaviour of the code: the round trip breaks where a byte straddles
a read block.  For a buffer of 820 bytes `0x11`, `hex_write_wrapped` writes 2050
characters, the two digits of byte 819 being characters 2047 and 2048; the
reader starts its third block at character 2048 with a fresh `hf = false`, takes
the second digit for a new byte, and stores 821 in `*outlen`.  A buffer of 819
bytes, whose text ends at character 2046, is read back with `*outlen = 819`. -/
theorem hex_round_trip_breaks_at_block_boundary :
    (hex_write_wrapped (List.replicate 820 17)).2 = 2050 ∧
    (hex_read_arbitrary 4096 (hex_write_wrapped (List.replicate 820 17)).1).map
      (fun r => r.2) = some 821 ∧
    (hex_read_arbitrary 4096 (hex_write_wrapped (List.replicate 819 17)).1).map
      (fun r => r.2) = some 819 := by
  decide!

end Rvault
